import Mathlib

/-!
Verification of the nifty-generator generative pipeline.

Shallow embedding of the code in `src/random.rs` (weighted sampler),
`src/generation/mod.rs` (layer compositor, video synthesis, persistence) and the
data model of `src/config.rs`.  External effects (the random number generator,
the image/font/audio decoders, the filesystem and the ffmpeg process) are
modelled as explicit oracle parameters; every definition follows the control
flow of the corresponding Rust function.  Rust `f64` weights are modelled as
exact rationals; Rust panics (`expect`) and `Result` errors both abort the run
and are both modelled as `Except.error`.
-/

deriving instance DecidableEq for Except

namespace Nifty

/-- Model of Rust `str::replace`: replace every non-overlapping occurrence of
`pat`, scanning left to right.  The fuel argument is the length of the scanned
list, which bounds the number of steps. -/
def replaceChars (pat rep : List Char) : Nat → List Char → List Char
  | 0, l => l
  | _, [] => []
  | fuel+1, c :: cs =>
    if List.isPrefixOf pat (c :: cs) then
      rep ++ replaceChars pat rep fuel (List.drop (pat.length - 1) cs)
    else c :: replaceChars pat rep fuel cs

/-- Rust `str::replace` on strings. -/
def replaceAll (s pat rep : String) : String :=
  String.mk (replaceChars pat.toList rep.toList s.toList.length s.toList)

/-- Split a character list at every occurrence of `sep`. -/
def splitOnChar (sep : Char) : List Char → List (List Char)
  | [] => [[]]
  | c :: cs =>
    let r := splitOnChar sep cs
    if c = sep then [] :: r
    else
      match r with
      | [] => [[c]]
      | h :: t => (c :: h) :: t

/-- Model of Rust `Path::file_stem` on a file name: the portion before the last
dot; the whole name if there is no dot, or if the name starts with a dot and
has no further dot. -/
def fileStem (name : String) : String :=
  let parts := splitOnChar '.' name.toList
  if parts.length ≤ 1 then name
  else if parts.headD [] = [] ∧ parts.length = 2 then name
  else String.mk (List.intercalate ['.'] parts.dropLast)

/-- Model of Rust `Path::extension` on a file name. -/
def extensionOf (name : String) : Option String :=
  let parts := splitOnChar '.' name.toList
  if parts.length ≤ 1 then Option.none
  else if parts.headD [] = [] ∧ parts.length = 2 then Option.none
  else Option.some (String.mk (parts.getLastD []))

/-- Model of Rust `PathBuf::set_extension` applied to a file name:
`file_stem` plus the new extension. -/
def setExtensionName (name ext : String) : String := fileStem name ++ "." ++ ext

/-- Paths are modelled as lists of components; `pathStr` renders them the way
`PathBuf` renders a relative path. -/
def pathStr (p : List String) : String := String.intercalate "/" p

/-- `PathBuf::set_extension` on a component path: rewrite the last component. -/
def setExtensionPath (p : List String) (ext : String) : List String :=
  p.dropLast ++ [setExtensionName (p.getLastD "") ext]

/-- `config.rs` `Color`: hex string plus resolved RGBA bytes. -/
structure Color where
  hex : String
  rgba : Nat × Nat × Nat × Nat
deriving DecidableEq

/-- `config.rs` `AttributeOption`: the closed tagged union of option variants.
Weights (`f64` in the source) are modelled as exact rationals; file and font
paths as strings. -/
inductive AttributeOption where
  | audio (file : String) (weight : ℚ)
  | color (color : Color) (weight : ℚ)
  | image (file : String) (weight : ℚ)
  | text (font : String) (text : String) (height : ℚ) (x : Int) (y : Int)
      (color : Color) (weight : ℚ)
  | none (weight : ℚ)
deriving DecidableEq

/-- `AttributeOption::weight`. -/
def AttributeOption.weight : AttributeOption → ℚ
  | .audio _ w => w
  | .color _ w => w
  | .image _ w => w
  | .text _ _ _ _ _ _ w => w
  | .none w => w

/-- `config.rs` `Attribute`: the ordered option map (`IndexMap`) is modelled as
an association list in insertion order. -/
structure Attribute where
  name : String
  options : List (String × AttributeOption)
  metadata : Bool
deriving DecidableEq

/-- `config.rs` `Config` (the fields that the generative pipeline reads). -/
structure Config where
  name : String
  description : String
  supply : Nat
  start_token : Nat
  external_url : Option String
  background_color : Option Color
  attributes : List Attribute
deriving DecidableEq

namespace Random

/-- Effectful `map` over `Except`, evaluating left to right and stopping at the
first error — the behaviour of the `?`-propagating loops in `random.rs`. -/
def mapExcept {α β : Type} (f : α → Except String β) : List α → Except String (List β)
  | [] => Except.ok []
  | x :: xs =>
    match f x with
    | Except.error e => Except.error e
    | Except.ok y =>
      match mapExcept f xs with
      | Except.error e => Except.error e
      | Except.ok ys => Except.ok (y :: ys)

/-- Model of `rand::distributions::WeightedIndex::new`: errors on an empty
option list, on any negative weight, and when the total weight is zero. -/
def weightedIndexNew (weights : List ℚ) : Except String Unit :=
  if weights.isEmpty then Except.error "NoItem"
  else if weights.any (fun w => decide (w < 0)) then Except.error "InvalidWeight"
  else if weights.sum = 0 then Except.error "AllWeightsZero"
  else Except.ok ()

/-- One draw for one attribute (`random.rs` lines 33-41): look up the sampled
index in the ordered option map; a missing index is the `expect` panic. -/
def sampleOne (attr : Attribute) (idx : Nat) : Except String (String × AttributeOption) :=
  match attr.options.get? idx with
  | Option.some kv => Except.ok kv
  | Option.none => Except.error "failed to get the attribute value at index"

/-- Total weight of an attribute's options. -/
def totalWeight (attr : Attribute) : ℚ :=
  (attr.options.map (fun kv => kv.2.weight)).sum

/-- Per-attribute sampling (`random.rs` lines 24-41): build the weighted index
(propagating its failure with the `with_context` message), then draw `supply`
samples.  `drawA i` is the index produced by the RNG for token `i`. -/
def sampleAttribute (supply : Nat) (drawA : Nat → Nat) (attr : Attribute) :
    Except String (List (String × AttributeOption)) :=
  match weightedIndexNew (attr.options.map (fun kv => kv.2.weight)) with
  | Except.error _ =>
      Except.error
        ("failed to generate the weighted index for the " ++ attr.name ++ " attribute")
  | Except.ok _ => mapExcept (fun i => sampleOne attr (drawA i)) (List.range supply)

/-- Default entry used to model the (unreachable) out-of-bounds panic of
`options[i]` in the assembly fold. -/
def defaultKV : String × AttributeOption := ("", AttributeOption.none 0)

/-- The attribute loop of `random.rs` `generate` (lines 23-72): per attribute,
in catalog order, the `supply` draws, keyed by the attribute (the `results`
IndexMap). -/
def sampleAll (cfg : Config) (draw : Nat → Nat → Nat) :
    Except String (List (Attribute × List (String × AttributeOption))) :=
  mapExcept
    (fun p =>
      match sampleAttribute cfg.supply (draw p.1) p.2 with
      | Except.error e => Except.error e
      | Except.ok generated => Except.ok (p.2, generated))
    cfg.attributes.enum

/-- The assembly fold of `random.rs` `generate` (lines 73-80): token `i` takes
every attribute's `i`-th draw, in catalog order. -/
def assemble (supply : Nat) (results : List (Attribute × List (String × AttributeOption))) :
    List (List (Attribute × String × AttributeOption)) :=
  (List.range supply).map (fun i =>
    results.map (fun r => (r.1, (r.2.getD i defaultKV).1, (r.2.getD i defaultKV).2)))

/-- `random.rs` `generate`: sample every attribute independently, then
column-align the draws by token index, preserving catalog order.
`draw a i` is the RNG's sampled option index for attribute `a` and token `i`. -/
def generate (cfg : Config) (draw : Nat → Nat → Nat) :
    Except String (List (List (Attribute × String × AttributeOption))) :=
  match sampleAll cfg draw with
  | Except.error e => Except.error e
  | Except.ok results => Except.ok (assemble cfg.supply results)

end Random

namespace Generation

/-- Symbolic model of `image::DynamicImage` rasters as they are built by the
compositor: decoded files, solid-color swatches, alpha overlays and drawn
text. -/
inductive Image where
  | file (path : String) (w h : Nat)
  | swatch (c : Color) (w h : Nat)
  | overlaid (bottom top : Image)
  | withText (base : Image) (text : String) (x y : Int) (height : ℚ) (c : Color)
deriving DecidableEq

/-- `DynamicImage::width`.  `imageops::overlay` keeps the bottom raster's
canvas (the top layer is clipped to it), and `draw_text` keeps the base's. -/
def Image.width : Image → Nat
  | .file _ w _ => w
  | .swatch _ w _ => w
  | .overlaid b _ => b.width
  | .withText b _ _ _ _ _ => b.width

/-- `DynamicImage::height`; see `Image.width`. -/
def Image.height : Image → Nat
  | .file _ _ h => h
  | .swatch _ _ h => h
  | .overlaid b _ => b.height
  | .withText b _ _ _ _ _ => b.height

/-- The colors of all solid-color swatch layers contained in a raster. -/
def Image.swatches : Image → List Color
  | .file _ _ _ => []
  | .swatch c _ _ => [c]
  | .overlaid b t => b.swatches ++ t.swatches
  | .withText b _ _ _ _ _ => b.swatches

/-- `metadata.rs` `Metadata`, with the string attribute entries produced by
`generate_token`. -/
structure MetadataRecord where
  id : Nat
  name : String
  description : String
  image : String
  external_url : Option String
  attributes : List (String × String)
  background_color : Option String
  animation_url : Option String
  youtube_url : Option String
deriving DecidableEq

/-- Oracles for the external effects of `generation/mod.rs`: decoders, the
filesystem, text measurement and the ffmpeg process. -/
structure Oracles where
  /-- `ImageCache::get`: dimensions of the decoded image at a path, or a
  decode/read error. -/
  imageDims : String → Except String (Nat × Nat)
  /-- `FontCache::get`: outcome of loading and parsing the font at a path. -/
  fontLoad : String → Except String Unit
  /-- `imageproc::drawing::text_size` at a pixel height, for a font path and a
  text: (width, height) of the glyph run. -/
  textSize : ℚ → String → String → Int × Int
  /-- `AudioCache::get`: precise duration in milliseconds probed from an `m4a`
  container, or a read error (an error here is the `expect` panic). -/
  audioDuration : String → Except String Nat
  /-- Outcome of the ffmpeg invocation, given image path, audio path and the
  optional millisecond trim bound. -/
  ffmpeg : String → String → Option Nat → Except String Unit
  /-- `DynamicImage::save` at a path: `some e` is a write error. -/
  saveImage : String → Image → Option String
  /-- `OpenOptions::open` of the metadata file for writing. -/
  openMetadataFile : String → Except String Unit
  /-- `serde_json::to_writer` of the metadata record: `some e` is a
  serialization/write error. -/
  writeMetadata : String → MetadataRecord → Option String

/-- The fields of the `Generator` struct read by token generation. -/
structure GenCfg where
  source : List String
  media : List String
  metadataDir : List String
  name : String
  description : String
  external_url : Option String
  background_color : Option Color
  start_token : Nat

/-- Model of `strfmt::strfmt` for the templates of this program, which use the
single variable `{id}`: substitute the token id for every `{id}`. -/
def expandId (template : String) (tokenId : Nat) : String :=
  replaceAll template "{id}" (toString tokenId)

/-- `generate_image_layer` (`generation/mod.rs` lines 222-258): resolve the
layer image via the cache; if there is no accumulated image yet, either return
the layer directly (no pending color) or composite it over a same-size swatch
of the pending color; otherwise alpha-overlay the layer at origin (0,0) over
the accumulated image. -/
def generate_image_layer (o : Oracles) (source : List String) (file : String)
    (token_image : Option Image) (token_color : Option Color) : Except String Image :=
  match o.imageDims (pathStr (source ++ [file])) with
  | Except.error e => Except.error e
  | Except.ok wh =>
    let layer_image := Image.file (pathStr (source ++ [file])) wh.1 wh.2
    match token_image with
    | Option.none =>
      match token_color with
      | Option.none => Except.ok layer_image
      | Option.some color =>
        Except.ok (Image.overlaid
          (Image.swatch color layer_image.width layer_image.height) layer_image)
    | Option.some img => Except.ok (Image.overlaid img layer_image)

/-- `generate_text` (`generation/mod.rs` lines 260-298): load the font, expand
`{id}` in the text, require an accumulated image (the `expect` panic
otherwise), measure the text, and draw it at `(x, y)` — where a negative
configured `x` is right-anchored: `width + x - text_width`. -/
def generate_text (o : Oracles) (source : List String) (token_id : Nat)
    (token_image : Option Image) (font : String) (text : String) (height : ℚ)
    (x y : Int) (color : Color) : Except String Image :=
  match o.fontLoad (pathStr (source ++ [font])) with
  | Except.error e => Except.error e
  | Except.ok _ =>
    let text := expandId text token_id
    match token_image with
    | Option.none =>
      Except.error "an image is required before text can be written - check that the text layer is above some other image layer"
    | Option.some image =>
      let ts := o.textSize height (pathStr (source ++ [font])) text
      let xPos := if x < 0 then ((image.width : Int) + x) - ts.1 else x
      Except.ok (Image.withText image text xPos y height color)

/-- The per-token mutable locals of `generate_token`. -/
structure LayerState where
  token_attributes : List (String × String)
  token_audio : Option String
  token_color : Option Color
  token_image : Option Image
deriving DecidableEq

/-- Initial per-token state. -/
def initState : LayerState := ⟨[], Option.none, Option.none, Option.none⟩

/-- One iteration of the layer loop of `generate_token` (`generation/mod.rs`
lines 144-196): record the metadata entry when the attribute is flagged, then
dispatch on the option variant. -/
def step (o : Oracles) (g : GenCfg) (token : Nat) (st : LayerState)
    (sel : Attribute × String × AttributeOption) : Except String LayerState :=
  let attr := sel.1
  let value := sel.2.1
  let st := if attr.metadata
    then { st with token_attributes := st.token_attributes ++ [(attr.name, value)] }
    else st
  match sel.2.2 with
  | AttributeOption.audio file _ => Except.ok { st with token_audio := Option.some file }
  | AttributeOption.color c _ =>
    Except.ok (if st.token_color.isNone then { st with token_color := Option.some c } else st)
  | AttributeOption.image file _ =>
    match generate_image_layer o g.source file st.token_image st.token_color with
    | Except.error e => Except.error e
    | Except.ok img => Except.ok { st with token_image := Option.some img }
  | AttributeOption.text font text height x y c _ =>
    match generate_text o g.source token st.token_image font text height x y c with
    | Except.error e => Except.error e
    | Except.ok img => Except.ok { st with token_image := Option.some img }
  | AttributeOption.none _ => Except.ok st

/-- The layer loop of `generate_token`, stopping at the first error. -/
def processLayers (o : Oracles) (g : GenCfg) (token : Nat) :
    List (Attribute × String × AttributeOption) → LayerState → Except String LayerState
  | [], st => Except.ok st
  | sel :: rest, st =>
    match step o g token st sel with
    | Except.error e => Except.error e
    | Except.ok st' => processLayers o g token rest st'

/-- `save_image` (`generation/mod.rs` lines 367-379): compute
`<media>/<token>.png`, attempt the write, log a write failure, and return the
path either way.  Result: (log lines, image path). -/
def save_image (o : Oracles) (media : List String) (token : Nat)
    (token_image : Image) : List String × List String :=
  let image_path := media ++ [toString token ++ ".png"]
  match o.saveImage (pathStr image_path) token_image with
  | Option.some e => (["error saving " ++ pathStr image_path ++ ": " ++ e], image_path)
  | Option.none => ([], image_path)

/-- The audio-duration probe of `generate_video` (`generation/mod.rs` lines
302-324): only an `m4a` extension triggers the cache probe; a probe failure is
the `expect` panic. -/
def audio_duration_for (o : Oracles) (audio : String) (audio_path : String) :
    Except String (Option Nat) :=
  match extensionOf audio with
  | Option.some ext =>
    if ext = "m4a" then
      match o.audioDuration audio_path with
      | Except.error e => Except.error ("could not get cached audio: " ++ e)
      | Except.ok d => Except.ok (Option.some d)
    else Except.ok Option.none
  | Option.none => Except.ok Option.none

/-- `generate_video` (`generation/mod.rs` lines 300-365): probe the precise
duration only for `m4a` audio, derive the video path from the image path by
replacing the extension with `mp4`, and run ffmpeg; a failed run is fatal. -/
def generate_video (o : Oracles) (source : List String) (image_path : List String)
    (audio : String) : Except String (List String) :=
  let audio_path := pathStr (source ++ [audio])
  match audio_duration_for o audio audio_path with
  | Except.error e => Except.error e
  | Except.ok dur =>
    let video_path := setExtensionPath image_path "mp4"
    match o.ffmpeg (pathStr image_path) audio_path dur with
    | Except.error e => Except.error e
    | Except.ok _ => Except.ok video_path

/-- The "Create metadata" block of `save_metadata` (`generation/mod.rs` lines
389-430): media paths relative to the media directory's basename, `{id}`
expanded in name and external url, `#` stripped from the background color,
always-empty youtube url. -/
def metadata_record (g : GenCfg) (token : Nat) (attrs : List (String × String))
    (background_color : Option String) (image_path : List String)
    (video_path : Option (List String)) : MetadataRecord :=
  let media := g.media.getLastD ""
  let image := "/" ++ media ++ "/" ++ image_path.getLastD ""
  let animation_url := video_path.map (fun p => "/" ++ media ++ "/" ++ p.getLastD "")
  { id := token
    name := expandId g.name token
    description := g.description
    image := image
    external_url := g.external_url.map (fun u => expandId u token)
    attributes := attrs
    background_color := background_color.map (fun c => replaceAll c "#" "")
    animation_url := animation_url
    youtube_url := Option.none }

/-- `save_metadata` (`generation/mod.rs` lines 381-450): build the metadata
record, open the metadata file — an open failure propagates with `?` — then
write the JSON, logging a write failure.  Result: (log lines, outcome). -/
def save_metadata (o : Oracles) (g : GenCfg) (token : Nat)
    (attrs : List (String × String)) (background_color : Option String)
    (image_path : List String) (video_path : Option (List String)) :
    List String × Except String MetadataRecord :=
  let md := metadata_record g token attrs background_color image_path video_path
  let metadata_path := pathStr (g.metadataDir ++ [toString token])
  match o.openMetadataFile metadata_path with
  | Except.error e => ([], Except.error e)
  | Except.ok _ =>
    match o.writeMetadata metadata_path md with
    | Option.some e => (["error saving " ++ metadata_path ++ ": " ++ e], Except.ok md)
    | Option.none => ([], Except.ok md)

/-- The observable outcome of one token: log lines and the persisted
artifacts (image path and raster, optional video path, metadata record). -/
structure TokenResult where
  logs : List String
  image_path : Option (List String)
  image : Option Image
  video_path : Option (List String)
  metadata : Option MetadataRecord
deriving DecidableEq

/-- Outcome of a token that never produced a raster: nothing persisted. -/
def skipped : TokenResult :=
  ⟨[], Option.none, Option.none, Option.none, Option.none⟩

/-- The conditional video step of `generate_token` (`generation/mod.rs` lines
203-208): a video is synthesized exactly when an audio selection is pending. -/
def video_step (o : Oracles) (g : GenCfg) (image_path : List String) :
    Option String → Except String (Option (List String))
  | Option.some audio =>
    match generate_video o g.source image_path audio with
    | Except.error e => Except.error e
    | Except.ok vp => Except.ok (Option.some vp)
  | Option.none => Except.ok Option.none

/-- `generate_token` (`generation/mod.rs` lines 130-220): process the layers
in catalog order; if no raster resulted, silently persist nothing; otherwise
save the image, synthesize a video when an audio selection is pending, resolve
the background color (token pick, else catalog default) and save the
metadata. -/
def generate_token (o : Oracles) (g : GenCfg) (token : Nat)
    (attrs : List (Attribute × String × AttributeOption)) : Except String TokenResult :=
  match processLayers o g token attrs initState with
  | Except.error e => Except.error e
  | Except.ok st =>
    match st.token_image with
    | Option.none => Except.ok skipped
    | Option.some img =>
      let si := save_image o g.media token img
      let image_path := si.2
      match video_step o g image_path st.token_audio with
      | Except.error e => Except.error e
      | Except.ok video_path =>
        let token_color := Option.or (st.token_color.map (fun c => c.hex))
          (g.background_color.map (fun c => c.hex))
        let sm := save_metadata o g token st.token_attributes token_color image_path video_path
        match sm.2 with
        | Except.error e => Except.error e
        | Except.ok md =>
          Except.ok { logs := si.1 ++ sm.1, image_path := Option.some image_path,
                      image := Option.some img, video_path := video_path,
                      metadata := Option.some md }

/-- The first `Color` selection of a token, in catalog (layer) order — the one
`generate_token` keeps in its `token_color` slot. -/
def firstColor : List (Attribute × String × AttributeOption) → Option Color
  | [] => Option.none
  | sel :: rest =>
    match sel.2.2 with
    | AttributeOption.color c _ => Option.some c
    | _ => firstColor rest

/-- All `Color` selections of a token, in catalog order. -/
def colorsOf (sels : List (Attribute × String × AttributeOption)) : List Color :=
  sels.filterMap (fun sel =>
    match sel.2.2 with
    | AttributeOption.color c _ => Option.some c
    | _ => Option.none)

/-- The swatch colors a fresh layer raster starts with in
`generate_image_layer`: an existing raster keeps its swatches; a fresh base
gets a single swatch of the pending color, if any. -/
def baseSwatches (ti : Option Image) (tc : Option Color) : List Color :=
  match ti with
  | Option.some img => img.swatches
  | Option.none =>
    match tc with
    | Option.some c => [c]
    | Option.none => []

/-- Selections that never contribute a raster: `None`, `Audio` and `Color`. -/
def nonVisual : AttributeOption → Bool
  | AttributeOption.audio _ _ => true
  | AttributeOption.color _ _ => true
  | AttributeOption.none _ => true
  | _ => false

end Generation

/-- A one-attribute catalog used to exercise the sampler on concrete input. -/
def attrEyes : Attribute :=
  ⟨"Eyes", [("Open", AttributeOption.image "eyes.png" 1)], true⟩

/-- Catalog with attribute `attrEyes`, supply 2, start id 1. -/
def cfgEyes : Config :=
  ⟨"Nifty {id}", "d", 2, 1, Option.none, Option.none, [attrEyes]⟩

/-- The token list the sampler returns for `cfgEyes` under constant draws. -/
def tokensEyes : List (List (Attribute × String × AttributeOption)) :=
  [[(attrEyes, "Open", AttributeOption.image "eyes.png" 1)],
   [(attrEyes, "Open", AttributeOption.image "eyes.png" 1)]]

/-- An attribute whose single option has weight 0, so total weight 0. -/
def attrZeroW : Attribute :=
  ⟨"Background", [("Red", AttributeOption.color ⟨"#FF0000", (255, 0, 0, 255)⟩ 0)], true⟩

/-- Catalog containing the zero-total-weight attribute `attrZeroW`. -/
def cfgZeroW : Config :=
  ⟨"Nifty {id}", "d", 2, 1, Option.none, Option.none, [attrZeroW]⟩

/-- Solid red, as `Color::from_hex("#FF0000")` resolves it. -/
def red : Color := ⟨"#FF0000", (255, 0, 0, 255)⟩

/-- Solid blue, as `Color::from_hex("#0000FF")` resolves it. -/
def blue : Color := ⟨"#0000FF", (0, 0, 255, 255)⟩

/-- An oracle in which every external effect succeeds: images decode at
500×500, fonts load, text measures 50×20, audio probes at 1000 ms, ffmpeg
succeeds and all writes succeed. -/
def oracleOk : Generation.Oracles :=
  { imageDims := fun _ => Except.ok (500, 500)
    fontLoad := fun _ => Except.ok ()
    textSize := fun _ _ _ => (50, 20)
    audioDuration := fun _ => Except.ok 1000
    ffmpeg := fun _ _ _ => Except.ok ()
    saveImage := fun _ _ => Option.none
    openMetadataFile := fun _ => Except.ok ()
    writeMetadata := fun _ _ => Option.none }

/-- `oracleOk`, but the image decoder reports 3×3 rasters. -/
def oracle3x3 : Generation.Oracles :=
  { oracleOk with imageDims := fun _ => Except.ok (3, 3) }

/-- `oracleOk`, but opening the metadata file for writing fails. -/
def oracleOpenFail : Generation.Oracles :=
  { oracleOk with openMetadataFile := fun _ => Except.error "denied" }

/-- `oracleOk`, but both the image write and the metadata JSON write fail. -/
def oracleFailWrites : Generation.Oracles :=
  { oracleOk with
    saveImage := fun _ _ => Option.some "disk full"
    writeMetadata := fun _ _ => Option.some "json fail" }

/-- The generator configuration used by the concrete witnesses. -/
def genCfgW : Generation.GenCfg :=
  { source := ["src"]
    media := ["output", "media"]
    metadataDir := ["output", "metadata"]
    name := "Nifty {id}"
    description := "d"
    external_url := Option.none
    background_color := Option.none
    start_token := 1 }

/-- An audio attribute for the witnesses. -/
def attrAudioW : Attribute :=
  ⟨"Sound", [("clip", AttributeOption.audio "clip.mp3" 1)], true⟩

/-- A red Color attribute for the witnesses. -/
def attrBgRed : Attribute :=
  ⟨"Background", [("Red", AttributeOption.color red 1)], true⟩

/-- A blue Color attribute for the witnesses. -/
def attrTint : Attribute :=
  ⟨"Tint", [("Blue", AttributeOption.color blue 1)], true⟩

/-- A token whose selections are all non-visual: audio, color, none. -/
def selsNonVisual : List (Attribute × String × AttributeOption) :=
  [(attrAudioW, "clip", AttributeOption.audio "clip.mp3" 1),
   (attrBgRed, "Red", AttributeOption.color red 1),
   (⟨"Nothing", [("n", AttributeOption.none 1)], false⟩, "n", AttributeOption.none 1)]

/-- A token with two Color selections followed by an image layer. -/
def selsTwoColors : List (Attribute × String × AttributeOption) :=
  [(attrBgRed, "Red", AttributeOption.color red 1),
   (attrTint, "Blue", AttributeOption.color blue 1),
   (attrEyes, "Open", AttributeOption.image "eyes.png" 1)]

/-- A token consisting of a single image layer. -/
def selsOneImage : List (Attribute × String × AttributeOption) :=
  [(attrEyes, "Open", AttributeOption.image "eyes.png" 1)]

/-- The layer state `selsOneImage` reaches under an oracle whose decoder
reports 500×500. -/
def stOneImage : Generation.LayerState :=
  ⟨[("Eyes", "Open")], Option.none, Option.none,
    Option.some (Generation.Image.file "src/eyes.png" 500 500)⟩

/-- The metadata record written for token 7 with background `#FF0000` under
`genCfgW`. -/
def mdW : Generation.MetadataRecord :=
  ⟨7, "Nifty 7", "d", "/media/7.png", Option.none, [], Option.some "FF0000",
    Option.none, Option.none⟩

/-- A red swatch under the eyes layer: the raster produced by a red Color pick
followed by an image layer, under a 500×500 decoder. -/
def imgSwatchRed : Generation.Image :=
  Generation.Image.overlaid (Generation.Image.swatch red 500 500)
    (Generation.Image.file "src/eyes.png" 500 500)

/-- A token with one Color selection followed by an image layer. -/
def selsColorImage : List (Attribute × String × AttributeOption) :=
  [(attrBgRed, "Red", AttributeOption.color red 1),
   (attrEyes, "Open", AttributeOption.image "eyes.png" 1)]

/-- The metadata record produced for token 1 of `selsColorImage`. -/
def mdColorImage : Generation.MetadataRecord :=
  ⟨1, "Nifty 1", "d", "/media/1.png", Option.none,
    [("Background", "Red"), ("Eyes", "Open")], Option.some "FF0000",
    Option.none, Option.none⟩

/-- The token result produced for token 1 of `selsColorImage`. -/
def rColorImage : Generation.TokenResult :=
  ⟨[], Option.some ["output", "media", "1.png"], Option.some imgSwatchRed,
    Option.none, Option.some mdColorImage⟩

/-- The metadata record produced for token 1 of `selsTwoColors`. -/
def mdTwoColors : Generation.MetadataRecord :=
  ⟨1, "Nifty 1", "d", "/media/1.png", Option.none,
    [("Background", "Red"), ("Tint", "Blue"), ("Eyes", "Open")], Option.some "FF0000",
    Option.none, Option.none⟩

/-- The token result produced for token 1 of `selsTwoColors`. -/
def rTwoColors : Generation.TokenResult :=
  ⟨[], Option.some ["output", "media", "1.png"], Option.some imgSwatchRed,
    Option.none, Option.some mdTwoColors⟩

open Random Generation

theorem mapExcept_ok_length {α β : Type} {f : α → Except String β} :
    ∀ {xs : List α} {ys : List β}, mapExcept f xs = Except.ok ys → ys.length = xs.length := by
  intro xs
  induction xs with
  | nil => intro ys h; simp [mapExcept] at h; simp [← h]
  | cons x xs ih =>
    intro ys h
    simp only [mapExcept] at h
    cases hx : f x with
    | error e => rw [hx] at h; exact absurd h (by simp)
    | ok y =>
      rw [hx] at h
      cases hxs : mapExcept f xs with
      | error e => rw [hxs] at h; exact absurd h (by simp)
      | ok ys' =>
        rw [hxs] at h
        simp at h
        subst h
        simp [ih hxs]

theorem mapExcept_ok_get {α β : Type} {f : α → Except String β} :
    ∀ {xs : List α} {ys : List β}, mapExcept f xs = Except.ok ys →
      ∀ i (hx : i < xs.length) (hy : i < ys.length),
        f (xs.get ⟨i, hx⟩) = Except.ok (ys.get ⟨i, hy⟩) := by
  intro xs
  induction xs with
  | nil => intro ys h i hx hy; exact absurd hx (by simp)
  | cons x xs ih =>
    intro ys h i hx hy
    simp only [mapExcept] at h
    cases hx' : f x with
    | error e => rw [hx'] at h; exact absurd h (by simp)
    | ok y =>
      rw [hx'] at h
      cases hxs : mapExcept f xs with
      | error e => rw [hxs] at h; exact absurd h (by simp)
      | ok ys' =>
        rw [hxs] at h
        simp at h
        subst h
        cases i with
        | zero => simpa using hx'
        | succ n =>
          simp only [List.get_cons_succ]
          exact ih hxs n (by simpa using hx) (by simpa using hy)

theorem mapExcept_ok_of_mem {α β : Type} {f : α → Except String β} :
    ∀ {xs : List α} {ys : List β}, mapExcept f xs = Except.ok ys →
      ∀ x ∈ xs, ∃ y, f x = Except.ok y := by
  intro xs
  induction xs with
  | nil => intro ys _ x hx; exact absurd hx (by simp)
  | cons x xs ih =>
    intro ys h z hz
    simp only [mapExcept] at h
    cases hx' : f x with
    | error e => rw [hx'] at h; exact absurd h (by simp)
    | ok y =>
      rw [hx'] at h
      cases hxs : mapExcept f xs with
      | error e => rw [hxs] at h; exact absurd h (by simp)
      | ok ys' =>
        rcases List.mem_cons.mp hz with hz | hz
        · exact ⟨y, hz ▸ hx'⟩
        · exact ih hxs z hz

theorem weightedIndexNew_error_of_nonpos (ws : List ℚ) (h : ws.sum ≤ 0) :
    ∃ e, weightedIndexNew ws = Except.error e := by
  unfold weightedIndexNew
  by_cases hemp : ws.isEmpty
  · exact ⟨"NoItem", by simp [hemp]⟩
  · by_cases hneg : ws.any (fun w => decide (w < 0))
    · exact ⟨"InvalidWeight", by simp [hemp, hneg]⟩
    · have hnn : ∀ w ∈ ws, (0 : ℚ) ≤ w := by
        intro w hw
        by_contra hlt
        apply hneg
        simp only [List.any_eq_true]
        exact ⟨w, hw, by simpa using lt_of_not_le hlt⟩
      have hge : (0 : ℚ) ≤ ws.sum := List.sum_nonneg hnn
      have hz : ws.sum = 0 := le_antisymm h hge
      exact ⟨"AllWeightsZero", by simp [hemp, hneg, hz]⟩

theorem sampleAttribute_ok_length {supply : Nat} {drawA : Nat → Nat} {attr : Attribute}
    {g : List (String × AttributeOption)}
    (h : Random.sampleAttribute supply drawA attr = Except.ok g) : g.length = supply := by
  unfold Random.sampleAttribute at h
  cases hw : Random.weightedIndexNew (attr.options.map (fun kv => kv.2.weight)) with
  | error e => rw [hw] at h; exact absurd h (by simp)
  | ok u => rw [hw] at h; simpa using mapExcept_ok_length h

theorem sampleAttribute_ok_get {supply : Nat} {drawA : Nat → Nat} {attr : Attribute}
    {g : List (String × AttributeOption)}
    (h : Random.sampleAttribute supply drawA attr = Except.ok g)
    (i : Nat) (hi : i < supply) (hi' : i < g.length) :
    Random.sampleOne attr (drawA i) = Except.ok (g.get ⟨i, hi'⟩) := by
  unfold Random.sampleAttribute at h
  cases hw : Random.weightedIndexNew (attr.options.map (fun kv => kv.2.weight)) with
  | error e => rw [hw] at h; exact absurd h (by simp)
  | ok u =>
    rw [hw] at h
    have hg := mapExcept_ok_get h i (by simpa using hi) hi'
    simpa using hg

theorem sampleAll_ok_length {cfg : Config} {draw : Nat → Nat → Nat}
    {results : List (Attribute × List (String × AttributeOption))}
    (h : Random.sampleAll cfg draw = Except.ok results) :
    results.length = cfg.attributes.length := by
  unfold Random.sampleAll at h
  simpa [List.enum_length] using mapExcept_ok_length h

theorem sampleAll_ok_get {cfg : Config} {draw : Nat → Nat → Nat}
    {results : List (Attribute × List (String × AttributeOption))}
    (h : Random.sampleAll cfg draw = Except.ok results)
    (a : Nat) (ha : a < cfg.attributes.length) (ha' : a < results.length) :
    ∃ generated,
      Random.sampleAttribute cfg.supply (draw a) (cfg.attributes.get ⟨a, ha⟩) =
          Except.ok generated ∧
        results.get ⟨a, ha'⟩ = (cfg.attributes.get ⟨a, ha⟩, generated) := by
  unfold Random.sampleAll at h
  have henum : a < cfg.attributes.enum.length := by simpa [List.enum_length] using ha
  have hf := mapExcept_ok_get h a henum ha'
  rw [List.get_eq_getElem, List.getElem_enum] at hf
  simp only at hf
  cases hsa : Random.sampleAttribute cfg.supply (draw a) cfg.attributes[a] with
  | error e => rw [hsa] at hf; exact absurd hf (by simp)
  | ok g =>
    rw [hsa] at hf
    simp only [Except.ok.injEq] at hf
    refine ⟨g, by simp only [List.get_eq_getElem, hsa], ?_⟩
    simp only [List.get_eq_getElem]
    exact hf.symm

/-- **C1**: a successful run of the sampler returns exactly `supply` sampled
tokens; each token has exactly one (attribute, option-name, option) triple per
attribute, in catalog order; and token `i`'s triple for attribute `a` is that
attribute's `i`-th draw — the draws are column-aligned by token index. -/
theorem generate_column_aligned (cfg : Config) (draw : Nat → Nat → Nat)
    (tokens : List (List (Attribute × String × AttributeOption)))
    (h : Random.generate cfg draw = Except.ok tokens) :
    tokens.length = cfg.supply ∧
    ∀ i, ∀ hi : i < tokens.length,
      (tokens.get ⟨i, hi⟩).length = cfg.attributes.length ∧
      ∀ a, ∀ ha : a < cfg.attributes.length, ∀ ha2 : a < (tokens.get ⟨i, hi⟩).length,
        ∃ kv, Random.sampleOne (cfg.attributes.get ⟨a, ha⟩) (draw a i) = Except.ok kv ∧
          (tokens.get ⟨i, hi⟩).get ⟨a, ha2⟩ = (cfg.attributes.get ⟨a, ha⟩, kv.1, kv.2) := by
  unfold Random.generate at h
  cases hm : Random.sampleAll cfg draw with
  | error e => rw [hm] at h; exact absurd h (by simp)
  | ok results =>
    rw [hm] at h
    simp only [Except.ok.injEq] at h
    subst h
    have hrl : results.length = cfg.attributes.length := sampleAll_ok_length hm
    refine ⟨by simp [Random.assemble], ?_⟩
    intro i hi
    have hisupply : i < cfg.supply := by simpa [Random.assemble] using hi
    constructor
    · simp [Random.assemble, hrl]
    · intro a ha ha2
      have ha' : a < results.length := hrl ▸ ha
      obtain ⟨g, hsa, hres⟩ := sampleAll_ok_get hm a ha ha'
      have hglen : g.length = cfg.supply := sampleAttribute_ok_length hsa
      have hgi : i < g.length := hglen ▸ hisupply
      refine ⟨g.get ⟨i, hgi⟩, sampleAttribute_ok_get hsa i hisupply hgi, ?_⟩
      simp only [List.get_eq_getElem] at hres ⊢
      simp [Random.assemble, List.getElem_map, List.getElem_range, hres,
        List.getElem?_eq_getElem hgi]

/-- **C2**: if any attribute of the catalog has total option weight ≤ 0, the
sampler's `generate` fails with an error (the weighted-index
`ConfigurationError`): no token list is returned, so the failure precedes any
token generation. -/
theorem generate_error_of_nonpos_weight (cfg : Config) (draw : Nat → Nat → Nat)
    (attr : Attribute) (hmem : attr ∈ cfg.attributes) (hw : Random.totalWeight attr ≤ 0) :
    ∃ e, Random.generate cfg draw = Except.error e := by
  cases hg : Random.generate cfg draw with
  | error e => exact ⟨e, rfl⟩
  | ok tokens =>
    exfalso
    unfold Random.generate at hg
    cases hm : Random.sampleAll cfg draw with
    | error e => rw [hm] at hg; exact absurd hg (by simp)
    | ok results =>
      obtain ⟨⟨a, halen⟩, hget⟩ := List.mem_iff_get.mp hmem
      have henum : (a, attr) ∈ cfg.attributes.enum := by
        have hh : cfg.attributes.enum.get ⟨a, by simpa [List.enum_length] using halen⟩ =
            (a, attr) := by
          simp only [List.get_eq_getElem] at hget ⊢
          simp [List.getElem_enum, hget]
        exact hh ▸ List.get_mem _ _ _
      have hmm := hm
      unfold Random.sampleAll at hmm
      obtain ⟨y, hy⟩ := mapExcept_ok_of_mem hmm (a, attr) henum
      obtain ⟨e', he'⟩ := weightedIndexNew_error_of_nonpos
        (attr.options.map (fun kv => kv.2.weight)) (by simpa [Random.totalWeight] using hw)
      simp [Random.sampleAttribute, he'] at hy

/-- Witness for C1: the concrete catalog `cfgEyes` (supply 2, one attribute)
under constant draws returns exactly the two column-aligned tokens. -/
theorem generate_column_aligned_witness :
    Random.generate cfgEyes (fun _ _ => 0) = Except.ok tokensEyes ∧
      tokensEyes.length = cfgEyes.supply :=
  have h : Random.generate cfgEyes (fun _ _ => 0) = Except.ok tokensEyes := by
    norm_num [Random.generate, Random.sampleAll, Random.assemble, Random.mapExcept,
      Random.sampleAttribute, Random.weightedIndexNew, Random.sampleOne, Random.defaultKV,
      cfgEyes, attrEyes, tokensEyes, AttributeOption.weight, List.enum, List.enumFrom,
      List.range_succ]
  ⟨h, (generate_column_aligned cfgEyes (fun _ _ => 0) tokensEyes h).1⟩

/-- Witness for C2: a concrete catalog whose attribute has total weight 0 makes
the sampler fail. -/
theorem generate_error_of_nonpos_weight_witness :
    attrZeroW ∈ cfgZeroW.attributes ∧ Random.totalWeight attrZeroW ≤ 0 ∧
      ∃ e, Random.generate cfgZeroW (fun _ _ => 0) = Except.error e :=
  ⟨by simp [cfgZeroW], by norm_num [Random.totalWeight, attrZeroW, AttributeOption.weight],
    generate_error_of_nonpos_weight cfgZeroW (fun _ _ => 0) attrZeroW (by simp [cfgZeroW])
      (by norm_num [Random.totalWeight, attrZeroW, AttributeOption.weight])⟩

theorem option_map_or {α β : Type} (a b : Option α) (f : α → β) :
    (Option.or a b).map f = Option.or (a.map f) (b.map f) := by
  cases a <;> rfl

theorem save_metadata_snd_ok {o : Oracles} {g : GenCfg} {token : Nat}
    {attrs : List (String × String)} {bg : Option String}
    {image_path : List String} {video_path : Option (List String)} {md : MetadataRecord}
    (h : (Generation.save_metadata o g token attrs bg image_path video_path).2 =
      Except.ok md) :
    md = Generation.metadata_record g token attrs bg image_path video_path := by
  simp only [Generation.save_metadata] at h
  cases ho : o.openMetadataFile (pathStr (g.metadataDir ++ [toString token])) with
  | error e => rw [ho] at h; exact absurd h (by simp)
  | ok u =>
    rw [ho] at h
    cases hw : o.writeMetadata (pathStr (g.metadataDir ++ [toString token]))
        (Generation.metadata_record g token attrs bg image_path video_path) with
    | some e =>
      rw [hw] at h
      simp only at h
      exact (Except.ok.inj h).symm
    | none =>
      rw [hw] at h
      simp only at h
      exact (Except.ok.inj h).symm

/-- **C10**: for a persisted token with a background color, the value stored in
the metadata record is the chosen hex string with every '#' character
removed. -/
theorem save_metadata_strips_hash (o : Oracles) (g : GenCfg) (token : Nat)
    (attrs : List (String × String)) (hex : String) (image_path : List String)
    (video_path : Option (List String)) (md : MetadataRecord)
    (h : (Generation.save_metadata o g token attrs (Option.some hex) image_path
        video_path).2 = Except.ok md) :
    md.background_color = Option.some (replaceAll hex "#" "") := by
  rw [save_metadata_snd_ok h]
  rfl

/-- Witness for C10: the background pick `#FF0000` is stored as `FF0000`. -/
theorem save_metadata_strips_hash_witness :
    (Generation.save_metadata oracleOk genCfgW 7 [] (Option.some "#FF0000")
        ["output", "media", "7.png"] Option.none).2 = Except.ok mdW ∧
      mdW.background_color = Option.some "FF0000" :=
  have h : (Generation.save_metadata oracleOk genCfgW 7 [] (Option.some "#FF0000")
      ["output", "media", "7.png"] Option.none).2 = Except.ok mdW := by decide
  ⟨h, (save_metadata_strips_hash oracleOk genCfgW 7 [] "#FF0000"
      ["output", "media", "7.png"] Option.none mdW h).trans (by decide)⟩

/-- **C5**: for a Text layer drawn on an accumulated canvas, the computed left
coordinate is `canvas_width + x - text_width` when the configured x is
negative (right-anchoring), and exactly x otherwise. -/
theorem generate_text_anchoring (o : Oracles) (source : List String) (token_id : Nat)
    (img : Image) (font text : String) (height : ℚ) (x y : Int) (color : Color)
    (hfont : o.fontLoad (pathStr (source ++ [font])) = Except.ok ()) :
    Generation.generate_text o source token_id (Option.some img) font text height x y color =
      Except.ok (Image.withText img (expandId text token_id)
        (if x < 0 then
          ((img.width : Int) + x) -
            (o.textSize height (pathStr (source ++ [font])) (expandId text token_id)).1
        else x) y height color) := by
  unfold Generation.generate_text
  rw [hfont]

/-- Witness for C5 at the spec's numbers: canvas width 500, measured text width
50, configured x = −10 give left coordinate 440. -/
theorem generate_text_anchoring_witness :
    oracleOk.fontLoad (pathStr (["src"] ++ ["f.ttf"])) = Except.ok () ∧
      Generation.generate_text oracleOk ["src"] 7
          (Option.some (Generation.Image.file "base.png" 500 400)) "f.ttf" "hi" 32 (-10) 20
          red =
        Except.ok (Generation.Image.withText (Generation.Image.file "base.png" 500 400) "hi"
          440 20 32 red) := by
  refine ⟨rfl, ?_⟩
  have h := generate_text_anchoring oracleOk ["src"] 7
    (Generation.Image.file "base.png" 500 400) "f.ttf" "hi" 32 (-10) 20 red rfl
  rw [h]
  decide

/-- **C7**: when `generate_video` succeeds, the returned video path is the
token's image path with its extension replaced by `mp4`. -/
theorem generate_video_path (o : Oracles) (source image_path : List String)
    (audio : String) (vp : List String)
    (h : Generation.generate_video o source image_path audio = Except.ok vp) :
    vp = setExtensionPath image_path "mp4" := by
  simp only [Generation.generate_video] at h
  cases hd : Generation.audio_duration_for o audio (pathStr (source ++ [audio])) with
  | error e => rw [hd] at h; exact absurd h (by simp)
  | ok dur =>
    rw [hd] at h
    dsimp only at h
    cases hf : o.ffmpeg (pathStr image_path) (pathStr (source ++ [audio])) dur with
    | error e => rw [hf] at h; exact absurd h (by simp)
    | ok u =>
      rw [hf] at h
      simp only at h
      exact (Except.ok.inj h).symm

/-- Witness for C7: image path `output/media/7.png` yields video path
`output/media/7.mp4`. -/
theorem generate_video_path_witness :
    Generation.generate_video oracleOk ["src"] ["output", "media", "7.png"] "clip.mp3" =
        Except.ok ["output", "media", "7.mp4"] ∧
      ["output", "media", "7.mp4"] = setExtensionPath ["output", "media", "7.png"] "mp4" :=
  have h : Generation.generate_video oracleOk ["src"] ["output", "media", "7.png"]
      "clip.mp3" = Except.ok ["output", "media", "7.mp4"] := by decide
  ⟨h, generate_video_path oracleOk ["src"] ["output", "media", "7.png"] "clip.mp3"
    ["output", "media", "7.mp4"] h⟩

/-- Counterexample to C8 as stated: an accumulated 2×2 raster and a 3×3 layer
— a canvas-size mismatch — do not make `generate_image_layer` fail; it
succeeds, alpha-overlaying the layer at origin (`imageops::overlay` clips the
top layer to the bottom canvas). -/
theorem image_layer_mismatch_not_fatal :
    (Generation.Image.file "base.png" 2 2).width ≠
        (Generation.Image.file "src/top.png" 3 3).width ∧
      Generation.generate_image_layer oracle3x3 ["src"] "top.png"
          (Option.some (Generation.Image.file "base.png" 2 2)) Option.none =
        Except.ok (Generation.Image.overlaid (Generation.Image.file "base.png" 2 2)
          (Generation.Image.file "src/top.png" 3 3)) :=
  ⟨by decide, by decide⟩

/-- C8 amended: when the accumulator already holds an image, the new layer is
alpha-overlaid at origin (0, 0); a canvas-size mismatch is not an error — the
overlay clips the top layer to the existing canvas, whose dimensions are
kept. -/
theorem image_layer_overlay_at_origin (o : Oracles) (source : List String)
    (file : String) (img : Image) (tc : Option Color) (w h : Nat)
    (hdec : o.imageDims (pathStr (source ++ [file])) = Except.ok (w, h)) :
    Generation.generate_image_layer o source file (Option.some img) tc =
        Except.ok (Image.overlaid img (Image.file (pathStr (source ++ [file])) w h)) ∧
      (Image.overlaid img (Image.file (pathStr (source ++ [file])) w h)).width = img.width ∧
      (Image.overlaid img (Image.file (pathStr (source ++ [file])) w h)).height =
        img.height := by
  refine ⟨?_, rfl, rfl⟩
  unfold Generation.generate_image_layer
  rw [hdec]

theorem or_none_right {α : Type} (a : Option α) : Option.or a Option.none = a := by
  cases a <;> rfl

theorem step_token_image_nonvisual {o : Oracles} {g : GenCfg} {token : Nat}
    {st : LayerState} {sel : Attribute × String × AttributeOption}
    (hnv : Generation.nonVisual sel.2.2 = true) :
    ∃ st', Generation.step o g token st sel = Except.ok st' ∧
      st'.token_image = st.token_image := by
  obtain ⟨attr, value, opt⟩ := sel
  cases opt with
  | audio f w =>
    refine ⟨_, rfl, ?_⟩
    by_cases hm : attr.metadata <;> simp [Generation.step, hm]
  | color c w =>
    refine ⟨_, rfl, ?_⟩
    by_cases hm : attr.metadata <;> by_cases hc : st.token_color.isNone <;>
      simp [Generation.step, hm, hc]
  | none w =>
    refine ⟨_, rfl, ?_⟩
    by_cases hm : attr.metadata <;> simp [Generation.step, hm]
  | image f w => exact absurd hnv (by simp [Generation.nonVisual])
  | text f t th x y c w => exact absurd hnv (by simp [Generation.nonVisual])

theorem processLayers_all_nonvisual {o : Oracles} {g : GenCfg} {token : Nat} :
    ∀ (sels : List (Attribute × String × AttributeOption)) (st : LayerState),
      (∀ sel ∈ sels, Generation.nonVisual sel.2.2 = true) →
      ∃ st', Generation.processLayers o g token sels st = Except.ok st' ∧
        st'.token_image = st.token_image := by
  intro sels
  induction sels with
  | nil => intro st _; exact ⟨st, rfl, rfl⟩
  | cons sel rest ih =>
    intro st hall
    obtain ⟨st1, hstep, him⟩ := step_token_image_nonvisual (hall sel (by simp))
    obtain ⟨st', hrest, him'⟩ := ih st1 (fun s hs => hall s (by simp [hs]))
    refine ⟨st', ?_, him'.trans him⟩
    simp only [Generation.processLayers]
    rw [hstep]
    exact hrest

/-- **C4**: a token whose sampled options are all None, Audio or Color — so no
Image or Text layer ever produces a raster — completes without error and
persists nothing: no image file, no video file, no metadata file. -/
theorem all_nonvisual_token_skipped (o : Oracles) (g : GenCfg) (token : Nat)
    (sels : List (Attribute × String × AttributeOption))
    (hall : ∀ sel ∈ sels, Generation.nonVisual sel.2.2 = true) :
    ∃ r, Generation.generate_token o g token sels = Except.ok r ∧
      r.image_path = Option.none ∧ r.image = Option.none ∧
      r.video_path = Option.none ∧ r.metadata = Option.none := by
  obtain ⟨st', hp, him⟩ := processLayers_all_nonvisual sels Generation.initState hall
  refine ⟨Generation.skipped, ?_, rfl, rfl, rfl, rfl⟩
  simp only [Generation.generate_token]
  rw [hp]
  dsimp only
  rw [him]
  rfl

/-- Witness for C4: a concrete all-non-visual token (audio, color, none) is
skipped: success and nothing persisted. -/
theorem all_nonvisual_token_skipped_witness :
    (∀ sel ∈ selsNonVisual, Generation.nonVisual sel.2.2 = true) ∧
      ∃ r, Generation.generate_token oracleOk genCfgW 1 selsNonVisual = Except.ok r ∧
        r.image_path = Option.none ∧ r.image = Option.none ∧
        r.video_path = Option.none ∧ r.metadata = Option.none :=
  ⟨by decide, all_nonvisual_token_skipped oracleOk genCfgW 1 selsNonVisual (by decide)⟩

/-- Case analysis of a successful `generate_token` run: either no raster was
produced and the token is skipped, or the image was saved, the optional video
step and the metadata write succeeded, and the result records all of them. -/
theorem generate_token_ok_cases {o : Oracles} {g : GenCfg} {token : Nat}
    {sels : List (Attribute × String × AttributeOption)} {r : TokenResult}
    (h : Generation.generate_token o g token sels = Except.ok r) :
    ∃ st, Generation.processLayers o g token sels Generation.initState = Except.ok st ∧
      ((st.token_image = Option.none ∧ r = Generation.skipped) ∨
       (∃ img vp md,
         st.token_image = Option.some img ∧
         Generation.video_step o g (Generation.save_image o g.media token img).2
             st.token_audio = Except.ok vp ∧
         (Generation.save_metadata o g token st.token_attributes
             (Option.or (st.token_color.map (fun c => c.hex))
               (g.background_color.map (fun c => c.hex)))
             (Generation.save_image o g.media token img).2 vp).2 = Except.ok md ∧
         r = { logs := (Generation.save_image o g.media token img).1 ++
                 (Generation.save_metadata o g token st.token_attributes
                   (Option.or (st.token_color.map (fun c => c.hex))
                     (g.background_color.map (fun c => c.hex)))
                   (Generation.save_image o g.media token img).2 vp).1
               image_path := Option.some (Generation.save_image o g.media token img).2
               image := Option.some img
               video_path := vp
               metadata := Option.some md })) := by
  simp only [Generation.generate_token] at h
  split at h
  · exact absurd h (by simp)
  · rename_i st hst
    refine ⟨st, hst, ?_⟩
    split at h
    · rename_i hnone
      exact Or.inl ⟨hnone, (Except.ok.inj h).symm⟩
    · rename_i img himg
      right
      split at h
      · exact absurd h (by simp)
      · rename_i vp hvp
        split at h
        · exact absurd h (by simp)
        · rename_i md hmd
          exact ⟨img, vp, md, himg, hvp, hmd, (Except.ok.inj h).symm⟩

/-- Witness for the amended C8 at a concrete mismatched pair (2×2 base under a
3×3 layer). -/
theorem image_layer_overlay_at_origin_witness :
    oracle3x3.imageDims (pathStr (["src"] ++ ["top.png"])) = Except.ok (3, 3) ∧
      Generation.generate_image_layer oracle3x3 ["src"] "top.png"
          (Option.some (Generation.Image.swatch red 2 2)) Option.none =
        Except.ok (Generation.Image.overlaid (Generation.Image.swatch red 2 2)
          (Generation.Image.file "src/top.png" 3 3)) :=
  have hdec : oracle3x3.imageDims (pathStr (["src"] ++ ["top.png"])) = Except.ok (3, 3) := rfl
  ⟨hdec, by
    have h := (image_layer_overlay_at_origin oracle3x3 ["src"] "top.png"
      (Generation.Image.swatch red 2 2) Option.none 3 3 hdec).1
    rw [h]
    decide⟩

theorem step_token_color {o : Oracles} {g : GenCfg} {token : Nat} {st st1 : LayerState}
    {sel : Attribute × String × AttributeOption}
    (h : Generation.step o g token st sel = Except.ok st1) :
    st1.token_color = Option.or st.token_color
      (match sel.2.2 with
       | AttributeOption.color c _ => Option.some c
       | _ => Option.none) := by
  obtain ⟨attr, value, opt⟩ := sel
  cases opt with
  | audio f w =>
    simp only [Generation.step] at h
    rw [← Except.ok.inj h]
    by_cases hm : attr.metadata <;> cases hc : st.token_color <;> simp [hm, hc, Option.or]
  | color c w =>
    simp only [Generation.step] at h
    rw [← Except.ok.inj h]
    by_cases hm : attr.metadata <;> cases hc : st.token_color <;>
      simp [hm, hc, Option.or, Option.isNone]
  | none w =>
    simp only [Generation.step] at h
    rw [← Except.ok.inj h]
    by_cases hm : attr.metadata <;> cases hc : st.token_color <;> simp [hm, hc, Option.or]
  | image f w =>
    by_cases hm : attr.metadata
    case pos =>
      simp only [Generation.step, hm, if_true, if_false, Bool.false_eq_true, reduceIte] at h
      cases hgen : Generation.generate_image_layer o g.source f st.token_image
          st.token_color with
      | error e => rw [hgen] at h; exact absurd h (by simp)
      | ok img =>
        rw [hgen] at h
        rw [← Except.ok.inj h]
        cases hc : st.token_color <;> simp [hc, Option.or]
    case neg =>
      simp only [Generation.step, hm, if_true, if_false, Bool.false_eq_true, reduceIte] at h
      cases hgen : Generation.generate_image_layer o g.source f st.token_image
          st.token_color with
      | error e => rw [hgen] at h; exact absurd h (by simp)
      | ok img =>
        rw [hgen] at h
        rw [← Except.ok.inj h]
        cases hc : st.token_color <;> simp [hc, Option.or]
  | text f t th x y c w =>
    by_cases hm : attr.metadata
    case pos =>
      simp only [Generation.step, hm, if_true, if_false, Bool.false_eq_true, reduceIte] at h
      cases hgen : Generation.generate_text o g.source token st.token_image f t th x y c with
      | error e => rw [hgen] at h; exact absurd h (by simp)
      | ok img =>
        rw [hgen] at h
        rw [← Except.ok.inj h]
        cases hc : st.token_color <;> simp [hc, Option.or]
    case neg =>
      simp only [Generation.step, hm, if_true, if_false, Bool.false_eq_true, reduceIte] at h
      cases hgen : Generation.generate_text o g.source token st.token_image f t th x y c with
      | error e => rw [hgen] at h; exact absurd h (by simp)
      | ok img =>
        rw [hgen] at h
        rw [← Except.ok.inj h]
        cases hc : st.token_color <;> simp [hc, Option.or]

theorem processLayers_token_color {o : Oracles} {g : GenCfg} {token : Nat} :
    ∀ (sels : List (Attribute × String × AttributeOption)) (st st' : LayerState),
      Generation.processLayers o g token sels st = Except.ok st' →
      st'.token_color = Option.or st.token_color (Generation.firstColor sels) := by
  intro sels
  induction sels with
  | nil =>
    intro st st' h
    simp only [Generation.processLayers] at h
    rw [← Except.ok.inj h, Generation.firstColor, or_none_right]
  | cons sel rest ih =>
    intro st st' h
    simp only [Generation.processLayers] at h
    cases hstep : Generation.step o g token st sel with
    | error e => rw [hstep] at h; exact absurd h (by simp)
    | ok st1 =>
      rw [hstep] at h
      rw [ih st1 st' h, step_token_color hstep]
      obtain ⟨attr, value, opt⟩ := sel
      cases opt <;> cases hc : st.token_color <;>
        simp [Generation.firstColor, Option.or]

/-- **C6**: for every persisted token, the metadata background color is
resolved with precedence: the token's (first) sampled Color option's hex if
one exists, else the catalog-level default background color if configured,
else absent — and stored with '#' stripped, per `save_metadata`. -/
theorem metadata_background_precedence (o : Oracles) (g : GenCfg) (token : Nat)
    (sels : List (Attribute × String × AttributeOption)) (r : TokenResult)
    (md : MetadataRecord)
    (h : Generation.generate_token o g token sels = Except.ok r)
    (hmd : r.metadata = Option.some md) :
    md.background_color =
      (Option.or ((Generation.firstColor sels).map (fun c => c.hex))
        (g.background_color.map (fun c => c.hex))).map (fun s => replaceAll s "#" "") := by
  obtain ⟨st, hp, hcase⟩ := generate_token_ok_cases h
  rcases hcase with ⟨hnone, hr⟩ | ⟨img, vp, md', himg, hvp, hsm, hr⟩
  · rw [hr] at hmd
    exact absurd hmd (by simp [Generation.skipped])
  · rw [hr] at hmd
    simp only [Option.some.injEq] at hmd
    have hrec := save_metadata_snd_ok hsm
    have htc := processLayers_token_color sels Generation.initState st hp
    have htc' : st.token_color = Generation.firstColor sels := htc
    rw [← hmd, hrec]
    show (Option.or (st.token_color.map (fun c => c.hex))
        (g.background_color.map (fun c => c.hex))).map (fun c => replaceAll c "#" "") = _
    rw [htc', option_map_or]

/-- Witness for C6: a red Color pick followed by an image layer, no catalog
default — the persisted metadata stores the token pick (stripped). -/
theorem metadata_background_precedence_witness :
    Generation.generate_token oracleOk genCfgW 1 selsColorImage = Except.ok rColorImage ∧
      rColorImage.metadata = Option.some mdColorImage ∧
      mdColorImage.background_color =
        (Option.or ((Generation.firstColor selsColorImage).map (fun c => c.hex))
          (genCfgW.background_color.map (fun c => c.hex))).map
            (fun s => replaceAll s "#" "") :=
  have h : Generation.generate_token oracleOk genCfgW 1 selsColorImage =
      Except.ok rColorImage := by decide
  ⟨h, by decide,
    metadata_background_precedence oracleOk genCfgW 1 selsColorImage rColorImage
      mdColorImage h (by decide)⟩

theorem generate_image_layer_swatches {o : Oracles} {source : List String} {file : String}
    {ti : Option Image} {tc : Option Color} {img' : Image}
    (h : Generation.generate_image_layer o source file ti tc = Except.ok img') :
    img'.swatches = Generation.baseSwatches ti tc := by
  simp only [Generation.generate_image_layer] at h
  cases hd : o.imageDims (pathStr (source ++ [file])) with
  | error e => rw [hd] at h; exact absurd h (by simp)
  | ok wh =>
    rw [hd] at h
    dsimp only at h
    cases ti with
    | none =>
      cases tc with
      | none => rw [← Except.ok.inj h]; rfl
      | some c => rw [← Except.ok.inj h]; rfl
    | some img =>
      rw [← Except.ok.inj h]
      simp [Image.swatches, Generation.baseSwatches]

theorem generate_text_ok_swatches {o : Oracles} {source : List String} {token_id : Nat}
    {ti : Option Image} {font text : String} {height : ℚ} {x y : Int} {color : Color}
    {img' : Image}
    (h : Generation.generate_text o source token_id ti font text height x y color =
      Except.ok img') :
    ∃ img, ti = Option.some img ∧ img'.swatches = img.swatches := by
  simp only [Generation.generate_text] at h
  cases hf : o.fontLoad (pathStr (source ++ [font])) with
  | error e => rw [hf] at h; exact absurd h (by simp)
  | ok u =>
    rw [hf] at h
    dsimp only at h
    cases ti with
    | none => exact absurd h (by simp)
    | some img =>
      refine ⟨img, rfl, ?_⟩
      rw [← Except.ok.inj h]
      simp [Image.swatches]

/-- The state invariant behind C9: every swatch layer inside the accumulated
raster carries the currently pending token color. -/
def swatchInv (st : LayerState) : Prop :=
  ∀ img, st.token_image = Option.some img →
    ∀ c ∈ img.swatches, st.token_color = Option.some c

theorem step_swatchInv {o : Oracles} {g : GenCfg} {token : Nat} {st st1 : LayerState}
    {sel : Attribute × String × AttributeOption}
    (h : Generation.step o g token st sel = Except.ok st1)
    (hinv : swatchInv st) : swatchInv st1 := by
  obtain ⟨attr, value, opt⟩ := sel
  have htc := step_token_color h
  cases opt with
  | audio f w =>
    obtain ⟨st'', hstep'', him''⟩ := @step_token_image_nonvisual o g token st
      (attr, value, AttributeOption.audio f w) (by simp [Generation.nonVisual])
    have hst : st'' = st1 := Except.ok.inj (hstep''.symm.trans h)
    subst hst
    intro img himg c hc
    rw [him''] at himg
    rw [htc, hinv img himg c hc]
    rfl
  | color c2 w =>
    obtain ⟨st'', hstep'', him''⟩ := @step_token_image_nonvisual o g token st
      (attr, value, AttributeOption.color c2 w) (by simp [Generation.nonVisual])
    have hst : st'' = st1 := Except.ok.inj (hstep''.symm.trans h)
    subst hst
    intro img himg c hc
    rw [him''] at himg
    rw [htc, hinv img himg c hc]
    rfl
  | none w =>
    obtain ⟨st'', hstep'', him''⟩ := @step_token_image_nonvisual o g token st
      (attr, value, AttributeOption.none w) (by simp [Generation.nonVisual])
    have hst : st'' = st1 := Except.ok.inj (hstep''.symm.trans h)
    subst hst
    intro img himg c hc
    rw [him''] at himg
    rw [htc, hinv img himg c hc]
    rfl
  | image f w =>
    by_cases hm : attr.metadata
    case pos =>
      simp only [Generation.step, hm, if_true, if_false, Bool.false_eq_true, reduceIte] at h
      cases hgen : Generation.generate_image_layer o g.source f st.token_image
          st.token_color with
      | error e => rw [hgen] at h; exact absurd h (by simp)
      | ok img' =>
        rw [hgen] at h
        rw [← Except.ok.inj h]
        intro img himg c hc
        simp only [Option.some.injEq] at himg
        rw [← himg] at hc
        rw [generate_image_layer_swatches hgen] at hc
        cases hti : st.token_image with
        | some base =>
          rw [hti] at hc
          simp only [Generation.baseSwatches] at hc
          simpa using hinv base hti c hc
        | none =>
          rw [hti] at hc
          cases htc2 : st.token_color with
          | none =>
            rw [htc2] at hc
            exact absurd hc (by simp [Generation.baseSwatches])
          | some d =>
            rw [htc2] at hc
            simp only [Generation.baseSwatches, List.mem_singleton] at hc
            simp [hc, htc2]
    case neg =>
      simp only [Generation.step, hm, if_true, if_false, Bool.false_eq_true, reduceIte] at h
      cases hgen : Generation.generate_image_layer o g.source f st.token_image
          st.token_color with
      | error e => rw [hgen] at h; exact absurd h (by simp)
      | ok img' =>
        rw [hgen] at h
        rw [← Except.ok.inj h]
        intro img himg c hc
        simp only [Option.some.injEq] at himg
        rw [← himg] at hc
        rw [generate_image_layer_swatches hgen] at hc
        cases hti : st.token_image with
        | some base =>
          rw [hti] at hc
          simp only [Generation.baseSwatches] at hc
          simpa using hinv base hti c hc
        | none =>
          rw [hti] at hc
          cases htc2 : st.token_color with
          | none =>
            rw [htc2] at hc
            exact absurd hc (by simp [Generation.baseSwatches])
          | some d =>
            rw [htc2] at hc
            simp only [Generation.baseSwatches, List.mem_singleton] at hc
            simp [hc, htc2]
  | text f t th x y c2 w =>
    by_cases hm : attr.metadata
    case pos =>
      simp only [Generation.step, hm, if_true, if_false, Bool.false_eq_true, reduceIte] at h
      cases hgen : Generation.generate_text o g.source token st.token_image f t th x y
          c2 with
      | error e => rw [hgen] at h; exact absurd h (by simp)
      | ok img' =>
        rw [hgen] at h
        rw [← Except.ok.inj h]
        intro img himg c hc
        simp only [Option.some.injEq] at himg
        rw [← himg] at hc
        obtain ⟨base, hbase, hsw⟩ := generate_text_ok_swatches hgen
        rw [hsw] at hc
        simpa using hinv base hbase c hc
    case neg =>
      simp only [Generation.step, hm, if_true, if_false, Bool.false_eq_true, reduceIte] at h
      cases hgen : Generation.generate_text o g.source token st.token_image f t th x y
          c2 with
      | error e => rw [hgen] at h; exact absurd h (by simp)
      | ok img' =>
        rw [hgen] at h
        rw [← Except.ok.inj h]
        intro img himg c hc
        simp only [Option.some.injEq] at himg
        rw [← himg] at hc
        obtain ⟨base, hbase, hsw⟩ := generate_text_ok_swatches hgen
        rw [hsw] at hc
        simpa using hinv base hbase c hc

theorem processLayers_swatchInv {o : Oracles} {g : GenCfg} {token : Nat} :
    ∀ (sels : List (Attribute × String × AttributeOption)) (st st' : LayerState),
      Generation.processLayers o g token sels st = Except.ok st' →
      swatchInv st → swatchInv st' := by
  intro sels
  induction sels with
  | nil =>
    intro st st' h hinv
    simp only [Generation.processLayers] at h
    rw [← Except.ok.inj h]
    exact hinv
  | cons sel rest ih =>
    intro st st' h hinv
    simp only [Generation.processLayers] at h
    cases hstep : Generation.step o g token st sel with
    | error e => rw [hstep] at h; exact absurd h (by simp)
    | ok st1 =>
      rw [hstep] at h
      exact ih st1 st' h (step_swatchInv hstep hinv)

theorem firstColor_eq_colorsOf_head :
    ∀ sels : List (Attribute × String × AttributeOption),
      Generation.firstColor sels = (Generation.colorsOf sels).head? := by
  intro sels
  induction sels with
  | nil => rfl
  | cons sel rest ih =>
    obtain ⟨attr, value, opt⟩ := sel
    cases opt <;> simp [Generation.firstColor, Generation.colorsOf, List.filterMap_cons] <;>
      simpa [Generation.colorsOf] using ih

/-- **C9**: when a token's selections include two or more Color options, only
the first in catalog (layer) order is used — every swatch layer of the
persisted raster carries the first color, and the metadata background color is
the first color's hex (stripped of '#'); every later Color selection is
ignored. -/
theorem first_color_wins (o : Oracles) (g : GenCfg) (token : Nat)
    (sels : List (Attribute × String × AttributeOption)) (r : TokenResult)
    (c1 c2 : Color) (restColors : List Color)
    (hcols : Generation.colorsOf sels = c1 :: c2 :: restColors)
    (h : Generation.generate_token o g token sels = Except.ok r) :
    (∀ img, r.image = Option.some img → ∀ c ∈ img.swatches, c = c1) ∧
    (∀ md, r.metadata = Option.some md →
      md.background_color = Option.some (replaceAll c1.hex "#" "")) := by
  have hfc : Generation.firstColor sels = Option.some c1 := by
    rw [firstColor_eq_colorsOf_head, hcols]
    rfl
  obtain ⟨st, hp, hcase⟩ := generate_token_ok_cases h
  have htc : st.token_color = Option.some c1 := by
    have := processLayers_token_color sels Generation.initState st hp
    rw [this, hfc]
    rfl
  rcases hcase with ⟨hnone, hr⟩ | ⟨img, vp, md', himg, hvp, hsm, hr⟩
  · subst hr
    constructor
    · intro img himg
      exact absurd himg (by simp [Generation.skipped])
    · intro md hmd
      exact absurd hmd (by simp [Generation.skipped])
  · subst hr
    constructor
    · intro img2 himg2 c hc
      simp only [Option.some.injEq] at himg2
      rw [← himg2] at hc
      have hinv : swatchInv st :=
        processLayers_swatchInv sels Generation.initState st hp
          (by intro i hi; exact absurd hi (by simp [Generation.initState]))
      have := hinv img himg c hc
      rw [htc] at this
      exact (Option.some.inj this).symm
    · intro md hmd
      simp only [Option.some.injEq] at hmd
      rw [← hmd, save_metadata_snd_ok hsm]
      show (Option.or (st.token_color.map (fun c => c.hex))
          (g.background_color.map (fun c => c.hex))).map (fun c => replaceAll c "#" "") = _
      rw [htc]
      rfl

/-- Witness for C9: a red then a blue Color pick followed by an image layer —
the swatch and the metadata background both use red, blue is ignored. -/
theorem first_color_wins_witness :
    Generation.colorsOf selsTwoColors = red :: blue :: [] ∧
      Generation.generate_token oracleOk genCfgW 1 selsTwoColors = Except.ok rTwoColors ∧
      ((∀ img, rTwoColors.image = Option.some img → ∀ c ∈ img.swatches, c = red) ∧
       (∀ md, rTwoColors.metadata = Option.some md →
         md.background_color = Option.some (replaceAll red.hex "#" ""))) :=
  have h : Generation.generate_token oracleOk genCfgW 1 selsTwoColors =
      Except.ok rTwoColors := by decide
  ⟨by decide, h,
    first_color_wins oracleOk genCfgW 1 selsTwoColors rTwoColors red blue [] (by decide) h⟩

/-- Counterexample to C3 as stated: a failure to open the metadata file for
writing — a metadata persistence failure — propagates out of `save_metadata`
through the `?` in `generate_token`, so the run aborts instead of continuing
with the next token. -/
theorem metadata_open_failure_aborts :
    Generation.generate_token oracleOpenFail genCfgW 1 selsOneImage =
      Except.error "denied" := by decide

/-- C3 amended: an image write failure and a metadata JSON write failure are
each logged and token generation completes normally (run continues); only a
failure to open the metadata file for writing aborts. -/
theorem save_failures_logged (o : Oracles) (g : GenCfg) (token : Nat)
    (sels : List (Attribute × String × AttributeOption)) (st : LayerState) (img : Image)
    (hp : Generation.processLayers o g token sels Generation.initState = Except.ok st)
    (himg : st.token_image = Option.some img)
    (hnoaudio : st.token_audio = Option.none)
    (hopen : o.openMetadataFile (pathStr (g.metadataDir ++ [toString token])) =
      Except.ok ()) :
    ∃ r, Generation.generate_token o g token sels = Except.ok r ∧
      (∀ e, o.saveImage (pathStr (g.media ++ [toString token ++ ".png"])) img =
          Option.some e →
        ("error saving " ++ pathStr (g.media ++ [toString token ++ ".png"]) ++ ": " ++ e)
          ∈ r.logs) ∧
      (∀ md e, r.metadata = Option.some md →
        o.writeMetadata (pathStr (g.metadataDir ++ [toString token])) md = Option.some e →
        ("error saving " ++ pathStr (g.metadataDir ++ [toString token]) ++ ": " ++ e)
          ∈ r.logs) := by
  have hip : (Generation.save_image o g.media token img).2 =
      g.media ++ [toString token ++ ".png"] := by
    simp only [Generation.save_image]
    cases o.saveImage (pathStr (g.media ++ [toString token ++ ".png"])) img <;> rfl
  simp only [Generation.generate_token]
  rw [hp]
  dsimp only
  rw [himg]
  dsimp only
  rw [hnoaudio]
  simp only [Generation.video_step]
  simp only [Generation.save_metadata]
  rw [hip, hopen]
  dsimp only
  cases hw : o.writeMetadata (pathStr (g.metadataDir ++ [toString token]))
      (Generation.metadata_record g token st.token_attributes
        (Option.or (st.token_color.map (fun c => c.hex))
          (g.background_color.map (fun c => c.hex)))
        (g.media ++ [toString token ++ ".png"]) Option.none) with
  | some e2 =>
    refine ⟨_, rfl, ?_, ?_⟩
    · intro e he
      simp only [Generation.save_image, he]
      simp
    · intro md e hmd he
      simp only [Option.some.injEq] at hmd
      rw [hmd] at hw
      rw [hw] at he
      simp only [Option.some.injEq] at he
      subst he
      simp
  | none =>
    refine ⟨_, rfl, ?_, ?_⟩
    · intro e he
      simp only [Generation.save_image, he]
      simp
    · intro md e hmd he
      simp only [Option.some.injEq] at hmd
      rw [hmd] at hw
      rw [hw] at he
      exact absurd he (by simp)

/-- Witness for the amended C3: under an oracle failing both writes, the token
still completes and both failures appear in the logs. -/
theorem save_failures_logged_witness :
    Generation.processLayers oracleFailWrites genCfgW 1 selsOneImage Generation.initState =
        Except.ok stOneImage ∧
      ∃ r, Generation.generate_token oracleFailWrites genCfgW 1 selsOneImage =
          Except.ok r ∧
        (∀ e, oracleFailWrites.saveImage
            (pathStr (genCfgW.media ++ [toString 1 ++ ".png"]))
            (Generation.Image.file "src/eyes.png" 500 500) = Option.some e →
          ("error saving " ++ pathStr (genCfgW.media ++ [toString 1 ++ ".png"]) ++ ": " ++ e)
            ∈ r.logs) ∧
        (∀ md e, r.metadata = Option.some md →
          oracleFailWrites.writeMetadata
              (pathStr (genCfgW.metadataDir ++ [toString 1])) md = Option.some e →
          ("error saving " ++ pathStr (genCfgW.metadataDir ++ [toString 1]) ++ ": " ++ e)
            ∈ r.logs) :=
  ⟨by decide,
    save_failures_logged oracleFailWrites genCfgW 1 selsOneImage stOneImage
      (Generation.Image.file "src/eyes.png" 500 500) (by decide) (by decide) rfl rfl⟩

end Nifty
